import Mathlib

/-!
Verification of the mlm consensus engine spec against its source.

Shallow embedding of the four source files:
  - `src/state/parallel.rs`   (parallel signature-verification stage)
  - `src/utils/timer_config.rs` (step timeout configuration)
  - `src/mlm.rs`              (engine instance, one-shot run, handler)
  - `tests/integration_tests/primitive.rs` (Block codec used by the tests)

Opaque host-supplied capabilities (crypto, codec encodings, the authority
manager) are modelled as records of functions, since the engine treats them
as black boxes behind trait objects.  Machine integers are `Nat` with an
explicit `% 2 ^ 64` where u64 overflow can occur; Rust `Result` is `Except`,
nullable slots are `Option`.
-/

/-! ## Abstract collaborator capabilities

Addresses, hashes, signatures and byte strings are opaque to the verify
stage; we model bytes as `List Nat` and the rest as `Nat`-indexed tokens. -/

/-- Crypto collaborator: `hash`, `verify_signature`,
`verify_aggregated_signature` as used by `parallel.rs`.  Verification
results (Rust `Result<(), E>`) are modelled as `Bool` (`true` = `Ok`). -/
structure Crypto where
  hash : List Nat → Nat
  verify_signature : Nat → Nat → Nat → Bool
  verify_aggregated_signature : Nat → Nat → List Nat → Bool

/-- Authority manager surface used by the verify stage:
`is_above_threshold` (Ok/Err as `Bool`) and `get_voters`
(Ok voters / Err as `Option`). -/
structure AuthorityManage where
  is_above_threshold : List Nat → Bool
  get_voters : List Nat → Option (List Nat)

/-! ## Message data model (spec section 3) -/

/-- Aggregated signature: `{aggregate_sig, address_bitmap}`. -/
structure AggSig where
  signature : Nat
  address_bitmap : List Nat
deriving DecidableEq, Repr

/-- AggregatedVote (QC): `{height, round, vote_type, block_hash, signature}`. -/
structure AggregatedVote where
  height : Nat
  round : Nat
  vote_type : Nat
  block_hash : Nat
  signature : AggSig
deriving DecidableEq, Repr

/-- PoLC: `{lock_round, lock_votes}`. -/
structure PoLC where
  lock_round : Nat
  lock_votes : AggregatedVote
deriving DecidableEq, Repr

/-- Proposal: `{height, round, content, block_hash, lock, proposer}`. -/
structure Proposal where
  height : Nat
  round : Nat
  content : Nat
  block_hash : Nat
  lock : Option PoLC
  proposer : Nat
deriving DecidableEq, Repr

/-- SignedProposal: proposal plus detached signature. -/
structure SignedProposal where
  signature : Nat
  proposal : Proposal
deriving DecidableEq, Repr

/-- Vote: `{height, round, vote_type, block_hash, voter}`. -/
structure Vote where
  height : Nat
  round : Nat
  vote_type : Nat
  block_hash : Nat
  voter : Nat
deriving DecidableEq, Repr

/-- SignedVote: vote plus detached signature and the voter address used for
verification (the code verifies against `sv.voter`). -/
structure SignedVote where
  signature : Nat
  vote : Vote
  voter : Nat
deriving DecidableEq, Repr

/-- Choke payload: `{height, round, from}`. -/
structure Choke where
  height : Nat
  round : Nat
  from_addr : Nat
deriving DecidableEq, Repr

/-- SignedChoke: choke plus detached signature and sender address. -/
structure SignedChoke where
  signature : Nat
  choke : Choke
  address : Nat
deriving DecidableEq, Repr

/-- Modelled from the spec: `Choke::to_hash` is repository code not under
`src/`; per spec sections 3 and 6 a signed message is its payload plus a
detached signature over `hash(encode(payload))`, so the digested value for a
choke is the choke payload itself. -/
def Choke.to_hash (c : Choke) : Choke := c

/-- The inbound message enum, restricted to the variants the verify stage
inspects; `other` stands for every variant falling into the `_ => ()` arm. -/
inductive MlmMsg where
  | SignedProposal (sp : SignedProposal)
  | SignedVote (sv : SignedVote)
  | AggregatedVote (qc : AggregatedVote)
  | SignedChoke (sc : SignedChoke)
  | other
deriving DecidableEq, Repr

/-- Modelled from the spec: the canonical codec (rlp) encodings of the
payload types and `AggregatedVote::to_vote`, all repository code not under
`src/`; the spec treats `encode` as an opaque lossless codec and `to_vote`
as the canonical single-vote payload the aggregate signs over, so both stay
abstract. -/
structure Enc where
  encode_proposal : Proposal → List Nat
  encode_vote : Vote → List Nat
  encode_choke : Choke → List Nat
  to_vote : AggregatedVote → Vote

/-! ## The parallel verify stage (`src/state/parallel.rs`)

The stage's only effect visible to the driver is whether
`tx.unbounded_send((ctx, msg_clone))` is reached; we model it as a `Bool`
(`true` = the message is forwarded into the driver ingress). -/

/-- Free function `get_voters` of `parallel.rs`: threshold gate then voter
resolution. -/
def get_voters (addr_bitmap : List Nat) (authority_manage : AuthorityManage) :
    Option (List Nat) :=
  if authority_manage.is_above_threshold addr_bitmap then
    authority_manage.get_voters addr_bitmap
  else none

/-- `verify_qc` of `parallel.rs`: resolve voters from the bitmap, then check
the aggregate signature over `hash(encode(qc.to_vote()))`; forwards only on
success. -/
def verify_qc (crypto : Crypto) (enc : Enc) (qc : AggregatedVote)
    (authority : AuthorityManage) : Bool :=
  let h := crypto.hash (enc.encode_vote (enc.to_vote qc))
  match get_voters qc.signature.address_bitmap authority with
  | some voters => crypto.verify_aggregated_signature qc.signature.signature h voters
  | none => false

/-- `parallel_verify` of `parallel.rs`: per-variant cryptographic gate;
result is whether the message is forwarded into the driver ingress. -/
def parallel_verify (crypto : Crypto) (enc : Enc) (authority : AuthorityManage) :
    MlmMsg → Bool
  | .SignedProposal sp =>
    let h := crypto.hash (enc.encode_proposal sp.proposal)
    if crypto.verify_signature sp.signature h sp.proposal.proposer then
      match sp.proposal.lock with
      | some polc => verify_qc crypto enc polc.lock_votes authority
      | none => true
    else false
  | .SignedVote sv =>
    let h := crypto.hash (enc.encode_vote sv.vote)
    crypto.verify_signature sv.signature h sv.voter
  | .AggregatedVote qc => verify_qc crypto enc qc authority
  | .SignedChoke sc =>
    let h := crypto.hash (enc.encode_choke sc.choke.to_hash)
    crypto.verify_signature sc.signature h sc.address
  | .other => false

/-! Spec-side check predicates, written as the spec phrases them (threshold,
voter resolution and aggregate signature as separate conjuncts). -/

/-- The spec's checks for a QC: bitmap above the two-thirds threshold, voters
resolve against the roster, aggregate signature verifies over
`hash(encode(qc.to_vote()))`. -/
def qcChecks (crypto : Crypto) (enc : Enc) (authority : AuthorityManage)
    (qc : AggregatedVote) : Prop :=
  authority.is_above_threshold qc.signature.address_bitmap = true ∧
  ∃ voters, authority.get_voters qc.signature.address_bitmap = some voters ∧
    crypto.verify_aggregated_signature qc.signature.signature
      (crypto.hash (enc.encode_vote (enc.to_vote qc))) voters = true

/-- The spec's per-variant cryptographic checks for an inbound message. -/
def msgChecks (crypto : Crypto) (enc : Enc) (authority : AuthorityManage) :
    MlmMsg → Prop
  | .SignedProposal sp =>
    crypto.verify_signature sp.signature
      (crypto.hash (enc.encode_proposal sp.proposal)) sp.proposal.proposer = true ∧
    ∀ polc, sp.proposal.lock = some polc → qcChecks crypto enc authority polc.lock_votes
  | .SignedVote sv =>
    crypto.verify_signature sv.signature
      (crypto.hash (enc.encode_vote sv.vote)) sv.voter = true
  | .AggregatedVote qc => qcChecks crypto enc authority qc
  | .SignedChoke sc =>
    crypto.verify_signature sc.signature
      (crypto.hash (enc.encode_choke sc.choke.to_hash)) sc.address = true
  | .other => False

theorem verify_qc_eq_true_iff (crypto : Crypto) (enc : Enc)
    (authority : AuthorityManage) (qc : AggregatedVote) :
    verify_qc crypto enc qc authority = true ↔ qcChecks crypto enc authority qc := by
  unfold verify_qc qcChecks get_voters
  by_cases hth : authority.is_above_threshold qc.signature.address_bitmap = true
  · simp only [hth, if_pos]
    cases hv : authority.get_voters qc.signature.address_bitmap with
    | none => simp [hv]
    | some voters =>
      simp only [hv, true_and]
      constructor
      · intro h; exact ⟨voters, rfl, h⟩
      · rintro ⟨vs, hvs, hsig⟩
        cases Option.some.injEq _ _ ▸ hvs
        simpa using hsig
  · simp only [Bool.not_eq_true] at hth
    simp [hth]

/-- Claim C1: for every inbound message handled by the parallel verify stage,
the message is forwarded into the driver's main ingress if and only if all of
its cryptographic checks succeed; a message failing any check is dropped. -/
theorem parallel_verify_forwards_iff_checks (crypto : Crypto) (enc : Enc)
    (authority : AuthorityManage) (msg : MlmMsg) :
    parallel_verify crypto enc authority msg = true ↔
      msgChecks crypto enc authority msg := by
  cases msg with
  | SignedProposal sp =>
    unfold parallel_verify msgChecks
    by_cases hsig : crypto.verify_signature sp.signature
        (crypto.hash (enc.encode_proposal sp.proposal)) sp.proposal.proposer = true
    · cases hl : sp.proposal.lock with
      | none =>
        simp only [hsig, if_pos, hl, true_and]
        constructor
        · intro _ polc hpolc; cases hpolc
        · intro _; trivial
      | some polc =>
        simp only [hsig, if_pos, hl, true_and]
        rw [verify_qc_eq_true_iff]
        constructor
        · intro h p hp; cases hp; exact h
        · intro h; exact h polc rfl
    · simp only [Bool.not_eq_true] at hsig
      simp [hsig]
  | SignedVote sv => simp [parallel_verify, msgChecks]
  | AggregatedVote qc =>
    simpa [parallel_verify, msgChecks] using
      verify_qc_eq_true_iff crypto enc authority qc
  | SignedChoke sc => simp [parallel_verify, msgChecks]
  | other => simp [parallel_verify, msgChecks]

/-- Claim C2: a SignedProposal whose proposal embeds a PoLC is forwarded iff
the proposer's signature over `hash(encode(proposal))` verifies and the
PoLC's aggregated vote passes the same checks as a standalone AggregatedVote
(threshold, voter resolution, aggregate signature over
`hash(encode(qc.to_vote()))`); failure of any of these drops the proposal. -/
theorem signed_proposal_with_polc_forwards_iff (crypto : Crypto) (enc : Enc)
    (authority : AuthorityManage) (sp : SignedProposal) (polc : PoLC)
    (hlock : sp.proposal.lock = some polc) :
    (parallel_verify crypto enc authority (.SignedProposal sp) = true ↔
      (crypto.verify_signature sp.signature
          (crypto.hash (enc.encode_proposal sp.proposal)) sp.proposal.proposer = true ∧
        parallel_verify crypto enc authority (.AggregatedVote polc.lock_votes) = true)) ∧
    (parallel_verify crypto enc authority (.AggregatedVote polc.lock_votes) = true ↔
      qcChecks crypto enc authority polc.lock_votes) := by
  constructor
  · unfold parallel_verify
    by_cases hsig : crypto.verify_signature sp.signature
        (crypto.hash (enc.encode_proposal sp.proposal)) sp.proposal.proposer = true
    · simp [hsig, hlock]
    · simp only [Bool.not_eq_true] at hsig
      simp [hsig]
  · simpa [parallel_verify] using
      verify_qc_eq_true_iff crypto enc authority polc.lock_votes

/-- Concrete collaborator instances used to witness the conditional claims:
an all-accepting crypto, constant encodings, and a permissive roster. -/
def cryptoW : Crypto :=
  { hash := fun _ => 0
    verify_signature := fun _ _ _ => true
    verify_aggregated_signature := fun _ _ _ => true }

def encW : Enc :=
  { encode_proposal := fun _ => []
    encode_vote := fun _ => []
    encode_choke := fun _ => []
    to_vote := fun qc => ⟨qc.height, qc.round, qc.vote_type, qc.block_hash, 0⟩ }

def authorityW : AuthorityManage :=
  { is_above_threshold := fun _ => true
    get_voters := fun _ => some [] }

def qcW : AggregatedVote := ⟨1, 0, 0, 7, ⟨5, [3]⟩⟩

def spW : SignedProposal :=
  ⟨9, ⟨1, 0, 42, 7, some ⟨0, qcW⟩, 2⟩⟩

/-- Witness for C2 at a concrete proposal embedding a PoLC. -/
theorem signed_proposal_with_polc_forwards_iff_witness :
    spW.proposal.lock = some ⟨0, qcW⟩ ∧
    ((parallel_verify cryptoW encW authorityW (.SignedProposal spW) = true ↔
      (cryptoW.verify_signature spW.signature
          (cryptoW.hash (encW.encode_proposal spW.proposal)) spW.proposal.proposer = true ∧
        parallel_verify cryptoW encW authorityW
          (.AggregatedVote (PoLC.mk 0 qcW).lock_votes) = true)) ∧
    (parallel_verify cryptoW encW authorityW
        (.AggregatedVote (PoLC.mk 0 qcW).lock_votes) = true ↔
      qcChecks cryptoW encW authorityW (PoLC.mk 0 qcW).lock_votes)) :=
  ⟨rfl, signed_proposal_with_polc_forwards_iff cryptoW encW authorityW spW ⟨0, qcW⟩ rfl⟩

/-- Claim C3: a SignedChoke's signature is verified over the hash of the
codec encoding of the choke payload itself, and the message is forwarded iff
that verification succeeds.  (`Choke::to_hash` is spec-modelled: the digested
value is the payload.) -/
theorem signed_choke_forwards_iff (crypto : Crypto) (enc : Enc)
    (authority : AuthorityManage) (sc : SignedChoke) :
    parallel_verify crypto enc authority (.SignedChoke sc) = true ↔
      crypto.verify_signature sc.signature
        (crypto.hash (enc.encode_choke sc.choke)) sc.address = true := by
  simp [parallel_verify, Choke.to_hash]

/-! ## Timer configuration (`src/utils/timer_config.rs`)

`Duration::from_millis` keeps whole milliseconds, so a timeout is a `Nat`
of milliseconds.  The u64 product `interval * num` is taken `% 2 ^ 64`
(release-mode wrapping); the subsequent u64 division cannot overflow. -/

/-- Modelled from the spec: the `SMREvent` enum (`smr/smr_types.rs` is not
under `src/`); spec section 4.4 lists the outbound SMR events
`NewRoundInfo`, `PrevoteVote`, `PrecommitVote`, `Brake`, `Commit`. -/
inductive SMREvent where
  | NewRoundInfo (height round : Nat) (is_proposer : Bool)
  | PrevoteVote (height round block_hash : Nat)
  | PrecommitVote (height round block_hash : Nat)
  | Brake (height round : Nat)
  | Commit (height block_hash : Nat)
deriving DecidableEq, Repr

/-- The error cases of `ConsensusError` exercised by the embedded code
(spec section 7 taxonomy). -/
inductive ConsensusError where
  | ChannelErr (s : String)
  | TimerErr (s : String)
  | Other (s : String)
deriving DecidableEq, Repr

/-- Modelled from the spec: `DurationConfig` (its declaration is not under
`src/`); spec sections 3 and 4.3 describe it as the per-step rational
`(num, den)` ratios carried by `Status`, and `timer_config.rs` reads them
via `get_propose_config` etc. -/
structure DurationConfig where
  propose_ratio : Nat × Nat
  prevote_ratio : Nat × Nat
  precommit_ratio : Nat × Nat
  brake_ratio : Nat × Nat
deriving DecidableEq, Repr

def DurationConfig.get_propose_config (d : DurationConfig) : Nat × Nat :=
  d.propose_ratio

def DurationConfig.get_prevote_config (d : DurationConfig) : Nat × Nat :=
  d.prevote_ratio

def DurationConfig.get_precommit_config (d : DurationConfig) : Nat × Nat :=
  d.precommit_ratio

def DurationConfig.get_brake_config (d : DurationConfig) : Nat × Nat :=
  d.brake_ratio

/-- `TimerConfig`: interval (a `Cell<u64>`, modelled functionally) plus the
four per-step `(num, den)` ratios. -/
structure TimerConfig where
  interval : Nat
  propose : Nat × Nat
  prevote : Nat × Nat
  precommit : Nat × Nat
  brake : Nat × Nat
deriving DecidableEq, Repr

/-- `TimerConfig::new`. -/
def TimerConfig.new (interval : Nat) : TimerConfig :=
  { interval := interval
    propose := (24, 10)
    prevote := (10, 10)
    precommit := (5, 10)
    brake := (3, 10) }

/-- `TimerConfig::set_interval` (interior mutation of the `Cell`, modelled as
a functional update). -/
def TimerConfig.set_interval (c : TimerConfig) (interval : Nat) : TimerConfig :=
  { c with interval := interval }

/-- `TimerConfig::update`. -/
def TimerConfig.update (c : TimerConfig) (config : DurationConfig) : TimerConfig :=
  { c with
    propose := config.get_propose_config
    prevote := config.get_prevote_config
    precommit := config.get_precommit_config
    brake := config.get_brake_config }

/-- `interval * num / den` in u64 arithmetic (wrapping product, truncating
division; the Rust code would panic on a zero denominator, which no default
or claim exercises). -/
def TimerConfig.get_propose_timeout (c : TimerConfig) : Nat :=
  c.interval * c.propose.1 % 2 ^ 64 / c.propose.2

def TimerConfig.get_prevote_timeout (c : TimerConfig) : Nat :=
  c.interval * c.prevote.1 % 2 ^ 64 / c.prevote.2

def TimerConfig.get_precommit_timeout (c : TimerConfig) : Nat :=
  c.interval * c.precommit.1 % 2 ^ 64 / c.precommit.2

def TimerConfig.get_brake_timeout (c : TimerConfig) : Nat :=
  c.interval * c.brake.1 % 2 ^ 64 / c.brake.2

/-- `TimerConfig::get_timeout`. -/
def TimerConfig.get_timeout (c : TimerConfig) : SMREvent → Except ConsensusError Nat
  | .NewRoundInfo .. => .ok c.get_propose_timeout
  | .PrevoteVote .. => .ok c.get_prevote_timeout
  | .PrecommitVote .. => .ok c.get_precommit_timeout
  | .Brake .. => .ok c.get_brake_timeout
  | _ => .error (.TimerErr "No commit timer")

/-- Ok-ness of an `Except` result. -/
def exceptIsOk : Except ConsensusError Nat → Bool
  | .ok _ => true
  | .error _ => false

/-- Claim C4 counterexample: with interval 1 ms the Precommit delay the code
computes is 0 ms, not the exact rational 1 · 5/10 = 0.5 ms, so the step
delays are not exact rational multiples of the interval. -/
theorem precommit_timeout_not_exact_rational :
    ¬ (((TimerConfig.new 1).get_precommit_timeout : ℚ) = (1 : ℚ) * 5 / 10) := by
  norm_num [TimerConfig.get_precommit_timeout, TimerConfig.new]

/-- Claim C4 (amended): a fresh `TimerConfig` carries the default ratio pairs
Propose 24/10, Prevote 10/10, Precommit 5/10, Brake 3/10, and (absent u64
overflow of `interval * num`) each step delay is the integer floor
`interval * num / den` in milliseconds, not the exact rational. -/
theorem timer_config_default_timeouts (i : Nat) (h : i * 24 < 2 ^ 64) :
    (TimerConfig.new i).propose = (24, 10) ∧
    (TimerConfig.new i).prevote = (10, 10) ∧
    (TimerConfig.new i).precommit = (5, 10) ∧
    (TimerConfig.new i).brake = (3, 10) ∧
    (TimerConfig.new i).get_propose_timeout = i * 24 / 10 ∧
    (TimerConfig.new i).get_prevote_timeout = i * 10 / 10 ∧
    (TimerConfig.new i).get_precommit_timeout = i * 5 / 10 ∧
    (TimerConfig.new i).get_brake_timeout = i * 3 / 10 := by
  have h10 : i * 10 < 2 ^ 64 :=
    lt_of_le_of_lt (Nat.mul_le_mul_left i (by norm_num)) h
  have h5 : i * 5 < 2 ^ 64 :=
    lt_of_le_of_lt (Nat.mul_le_mul_left i (by norm_num)) h
  have h3 : i * 3 < 2 ^ 64 :=
    lt_of_le_of_lt (Nat.mul_le_mul_left i (by norm_num)) h
  refine ⟨rfl, rfl, rfl, rfl, ?_, ?_, ?_, ?_⟩
  · show i * 24 % 2 ^ 64 / 10 = i * 24 / 10
    rw [Nat.mod_eq_of_lt h]
  · show i * 10 % 2 ^ 64 / 10 = i * 10 / 10
    rw [Nat.mod_eq_of_lt h10]
  · show i * 5 % 2 ^ 64 / 10 = i * 5 / 10
    rw [Nat.mod_eq_of_lt h5]
  · show i * 3 % 2 ^ 64 / 10 = i * 3 / 10
    rw [Nat.mod_eq_of_lt h3]

/-- Witness for the amended C4 at the scenario interval 3000 ms. -/
theorem timer_config_default_timeouts_witness :
    3000 * 24 < 2 ^ 64 ∧
    ((TimerConfig.new 3000).propose = (24, 10) ∧
     (TimerConfig.new 3000).prevote = (10, 10) ∧
     (TimerConfig.new 3000).precommit = (5, 10) ∧
     (TimerConfig.new 3000).brake = (3, 10) ∧
     (TimerConfig.new 3000).get_propose_timeout = 3000 * 24 / 10 ∧
     (TimerConfig.new 3000).get_prevote_timeout = 3000 * 10 / 10 ∧
     (TimerConfig.new 3000).get_precommit_timeout = 3000 * 5 / 10 ∧
     (TimerConfig.new 3000).get_brake_timeout = 3000 * 3 / 10) :=
  ⟨by norm_num, timer_config_default_timeouts 3000 (by norm_num)⟩

/-- Claim C5: querying the timer configuration succeeds exactly on the four
timed events (NewRoundInfo, PrevoteVote, PrecommitVote, Brake); any other
SMR event — here, Commit — yields a `TimerErr` error, not a duration. -/
theorem get_timeout_ok_iff_timed (c : TimerConfig) (e : SMREvent) :
    (exceptIsOk (c.get_timeout e) = true ↔ ∀ h b, e ≠ SMREvent.Commit h b) ∧
    (∀ h b, e = SMREvent.Commit h b →
      c.get_timeout e = Except.error (ConsensusError.TimerErr "No commit timer")) := by
  cases e <;> simp [TimerConfig.get_timeout, exceptIsOk]

/-- Claim C6: `set_interval` changes only the interval and `update` replaces
exactly the four ratios while leaving the interval unchanged; subsequent
`get_timeout` queries compute from the updated fields. -/
theorem timer_config_set_interval_update_frame (c : TimerConfig) (i : Nat)
    (d : DurationConfig) :
    (c.set_interval i).interval = i ∧
    (c.set_interval i).propose = c.propose ∧
    (c.set_interval i).prevote = c.prevote ∧
    (c.set_interval i).precommit = c.precommit ∧
    (c.set_interval i).brake = c.brake ∧
    (c.update d).interval = c.interval ∧
    (c.update d).propose = d.get_propose_config ∧
    (c.update d).prevote = d.get_prevote_config ∧
    (c.update d).precommit = d.get_precommit_config ∧
    (c.update d).brake = d.get_brake_config ∧
    (∀ h r p, (c.set_interval i).get_timeout (SMREvent.NewRoundInfo h r p) =
      Except.ok (i * c.propose.1 % 2 ^ 64 / c.propose.2)) ∧
    (∀ h r b, (c.update d).get_timeout (SMREvent.PrevoteVote h r b) =
      Except.ok (c.interval * d.get_prevote_config.1 % 2 ^ 64 / d.get_prevote_config.2)) := by
  refine ⟨rfl, rfl, rfl, rfl, rfl, rfl, rfl, rfl, rfl, rfl, ?_, ?_⟩ <;>
    intros <;> rfl

/-! ## Engine instance and handler (`src/mlm.rs`)

The futures unbounded channel is modelled by its producer end: a closed
flag, a flag saying whether the underlying send itself fails (the receiver
can be dropped between the `is_closed()` check and the send, so the two are
independent), and the queue of enqueued messages. -/

/-- Producer end of the ingress channel. -/
structure UnboundedSender (α : Type) where
  is_closed : Bool
  send_fails : Bool
  buffer : List α
deriving DecidableEq, Repr

/-- `unbounded_send`: fails when the channel is disconnected, otherwise
appends to the queue. -/
def UnboundedSender.unbounded_send {α : Type} (s : UnboundedSender α) (a : α) :
    Except String (UnboundedSender α) :=
  if s.send_fails then .error "disconnected"
  else .ok { s with buffer := s.buffer ++ [a] }

/-- `MlmHandler`: a clone of the ingress producer. -/
structure MlmHandler (α : Type) where
  tx : UnboundedSender α
deriving DecidableEq, Repr

/-- `MlmHandler::send_msg`: `ChannelErr` when the channel is closed,
otherwise `unbounded_send` with failures mapped to `Other`.  The result is
the returned `ConsensusResult<()>` plus the handler's channel state after the
call (tracing span manipulation on `ctx` has no channel effect and is
omitted). -/
def MlmHandler.send_msg {α : Type} (h : MlmHandler α) (msg : α) :
    Except ConsensusError Unit × MlmHandler α :=
  if h.tx.is_closed then
    (.error (.ChannelErr "[MlmHandler]: channel closed"), h)
  else
    match h.tx.unbounded_send msg with
    | .ok tx2 => (.ok (), ⟨tx2⟩)
    | .error e => (.error (.Other ("Send message error " ++ e)), h)

/-- A freshly created unbounded channel's producer end (`unbounded()`):
open, functional, empty. -/
def freshSender (α : Type) : UnboundedSender α :=
  { is_closed := false, send_fails := false, buffer := [] }

/-- The `Mlm` instance: six nullable one-shot slots (`Pile<T> =
RwLock<Option<T>>`).  The receiver and the collaborator references are
opaque tokens. -/
structure Mlm (α : Type) where
  sender : Option (UnboundedSender α)
  state_rx : Option Nat
  address : Option Nat
  consensus : Option Nat
  crypto : Option Nat
  wal : Option Nat
deriving DecidableEq, Repr

/-- `Mlm::new`: creates a fresh unbounded channel and fills every slot with
`Some`. -/
def Mlm.new (α : Type) (address consensus crypto wal : Nat) : Mlm α :=
  { sender := some (freshSender α)
    state_rx := some 0
    address := some address
    consensus := some consensus
    crypto := some crypto
    wal := some wal }

/-- `Mlm::get_handler`: asserts the sender slot is present and clones it;
the assertion firing (slot empty) is modelled as `none`. -/
def Mlm.get_handler {α : Type} (m : Mlm α) : Option (MlmHandler α) :=
  m.sender.map MlmHandler.mk

/-- The slot-consuming prologue of `Mlm::run`: `take().unwrap()` on the
`state_rx`, `address`, `consensus`, `crypto`, `wal` slots (an `unwrap` panic
on an empty slot is modelled as `none`), returning the taken values and the
instance afterwards.  The `sender` slot is not touched (the code's access to
it is commented out). -/
def Mlm.run_consume {α : Type} (m : Mlm α) :
    Option ((Nat × Nat × Nat × Nat × Nat) × Mlm α) :=
  match m.state_rx, m.address, m.consensus, m.crypto, m.wal with
  | some rx, some a, some co, some cr, some w =>
    some ((rx, a, co, cr, w),
      { m with
        state_rx := none
        address := none
        consensus := none
        crypto := none
        wal := none })
  | _, _, _, _, _ => none

/-- Claim C7: `send_msg` returns `ChannelErr` when the ingress channel is
closed; on an open channel it enqueues the message and returns `Ok`, or an
`Other` error when the underlying send fails. -/
theorem send_msg_channel_behaviour {α : Type} (h : MlmHandler α) (msg : α) :
    (h.tx.is_closed = true →
      (h.send_msg msg).1 =
        Except.error (ConsensusError.ChannelErr "[MlmHandler]: channel closed")) ∧
    (h.tx.is_closed = false → h.tx.send_fails = false →
      (h.send_msg msg).1 = Except.ok () ∧
      (h.send_msg msg).2.tx.buffer = h.tx.buffer ++ [msg]) ∧
    (h.tx.is_closed = false → h.tx.send_fails = true →
      ∃ s, (h.send_msg msg).1 = Except.error (ConsensusError.Other s)) := by
  refine ⟨fun hc => ?_, fun hc hf => ?_, fun hc hf => ?_⟩
  · simp [MlmHandler.send_msg, hc]
  · simp [MlmHandler.send_msg, hc, UnboundedSender.unbounded_send, hf]
  · exact ⟨"Send message error " ++ "disconnected", by
      simp [MlmHandler.send_msg, hc, UnboundedSender.unbounded_send, hf]⟩

/-- Witness for C7 on a fresh open channel: sending enqueues and returns Ok. -/
theorem send_msg_channel_behaviour_witness :
    (MlmHandler.mk (freshSender Nat)).tx.is_closed = false ∧
    (MlmHandler.mk (freshSender Nat)).tx.send_fails = false ∧
    (((MlmHandler.mk (freshSender Nat)).send_msg 7).1 = Except.ok () ∧
      ((MlmHandler.mk (freshSender Nat)).send_msg 7).2.tx.buffer =
        (MlmHandler.mk (freshSender Nat)).tx.buffer ++ [7]) :=
  ⟨rfl, rfl, (send_msg_channel_behaviour (MlmHandler.mk (freshSender Nat)) 7).2.1 rfl rfl⟩

/-- Claim C8: the first `run` on a fresh instance consumes the five one-shot
slots, leaving each empty, and a second `run` on the resulting instance
cannot obtain them and fails. -/
theorem run_consumes_one_shot_slots (address consensus crypto wal : Nat) :
    ∃ t m2, (Mlm.new Nat address consensus crypto wal).run_consume = some (t, m2) ∧
      m2.state_rx = none ∧ m2.address = none ∧ m2.consensus = none ∧
      m2.crypto = none ∧ m2.wal = none ∧ m2.run_consume = none :=
  ⟨(0, address, consensus, crypto, wal),
    { sender := some (freshSender Nat)
      state_rx := none
      address := none
      consensus := none
      crypto := none
      wal := none },
    rfl, rfl, rfl, rfl, rfl, rfl, rfl⟩

/-- Claim C10: `run` never consumes the sender slot, so `get_handler`
succeeds after `run` exactly as before it, and every handler obtained from
the instance wraps the same ingress producer. -/
theorem get_handler_stable_under_run {α : Type} (m : Mlm α)
    (t : Nat × Nat × Nat × Nat × Nat) (m2 : Mlm α)
    (hrun : m.run_consume = some (t, m2)) :
    m2.sender = m.sender ∧ m2.get_handler = m.get_handler ∧
    ∀ s, m.sender = some s →
      m.get_handler = some (MlmHandler.mk s) ∧
      m2.get_handler = some (MlmHandler.mk s) := by
  obtain ⟨sen, srx, addr, cons, cry, w⟩ := m
  cases srx <;> cases addr <;> cases cons <;> cases cry <;> cases w <;>
    simp_all [Mlm.run_consume, Mlm.get_handler]
  obtain ⟨-, hm2⟩ := hrun
  subst hm2
  simp

/-- The state of a fresh instance after `run` has consumed the five one-shot
slots: only the sender remains. -/
def mlmAfterRunW : Mlm Nat :=
  { sender := some (freshSender Nat)
    state_rx := none
    address := none
    consensus := none
    crypto := none
    wal := none }

/-- Witness for C10 on a fresh instance: `run` leaves the sender slot in
place and `get_handler` yields the same producer afterwards. -/
theorem get_handler_stable_under_run_witness :
    (Mlm.new Nat 1 2 3 4).run_consume = some ((0, 1, 2, 3, 4), mlmAfterRunW) ∧
    (mlmAfterRunW.sender = (Mlm.new Nat 1 2 3 4).sender ∧
      mlmAfterRunW.get_handler = (Mlm.new Nat 1 2 3 4).get_handler ∧
      ∀ s, (Mlm.new Nat 1 2 3 4).sender = some s →
        (Mlm.new Nat 1 2 3 4).get_handler = some (MlmHandler.mk s) ∧
        mlmAfterRunW.get_handler = some (MlmHandler.mk s)) :=
  ⟨rfl, get_handler_stable_under_run (Mlm.new Nat 1 2 3 4) (0, 1, 2, 3, 4)
    mlmAfterRunW rfl⟩

/-! ## The Block codec of the integration tests
(`tests/integration_tests/primitive.rs`)

`Block` wraps opaque bytes; `encode` clones the bytes, `decode` wraps them
back. -/

/-- The test payload type `Block { inner: Bytes }`. -/
structure Block where
  inner : List Nat
deriving DecidableEq, Repr

/-- `Codec::encode` for `Block`. -/
def Block.encode (b : Block) : Except String (List Nat) := .ok b.inner

/-- `Codec::decode` for `Block`. -/
def Block.decode (data : List Nat) : Except String Block := .ok ⟨data⟩

/-- Claim C9: the Block codec round-trip is lossless — for every Block b,
`decode(encode(b)) == b`. -/
theorem block_codec_round_trip (b : Block) :
    (Block.encode b).bind Block.decode = Except.ok b := rfl
